import Mathlib

/-!
Verification of the query result cache of this repository.

The cache implementation itself (query_cache module) is not present under
src/; only its test file src/rs/execution_environment/src/query_handler/
query_cache/tests.rs is.  The definitions below are therefore modelled from
the specification (spec.md §3, §4) and checked against the concrete
scenarios of the test file.  Machine integers (u64 byte counts, nanosecond
times) are modelled as Nat; times are in whole seconds, which suffices for
every scenario in the tests (all time steps are whole seconds).
-/

/-- Modelled from the spec: the cache key (spec §3, tests.rs UserQuery
fields).  Equality-defining fields only: source and receiver principals,
method name and method payload.  Principals are modelled as Nat, byte
sequences as List Nat.  Two keys are equal iff all four fields are equal. -/
structure EntryKey where
  source : Nat
  receiver : Nat
  method_name : String
  method_payload : List Nat
deriving DecidableEq

/-- Modelled from the spec: the environment snapshot (spec §3; tests.rs
EntryEnv with batch_time, canister_version, canister_balance).  batch_time
is modelled in whole seconds as Nat; balance (Cycles) as Nat. -/
structure EntryEnv where
  batch_time : Nat
  canister_version : Nat
  canister_balance : Nat
deriving DecidableEq

/-- Modelled from the spec: the tagged query outcome (spec §3 Value.result;
tests.rs WasmResult): either Reply(bytes) or Reject(reason). -/
inductive WasmResult where
  | Reply (bytes : List Nat)
  | Reject (reason : String)
deriving DecidableEq

/-- Modelled from the spec: the cached value (spec §3; tests.rs EntryValue):
the result together with the environment captured when it was produced. -/
structure EntryValue where
  env : EntryEnv
  result : WasmResult
deriving DecidableEq

/-- Modelled from the spec: EntryValue::new records created_at from
env.batch_time (spec §4.C); since the captured env is immutable, created_at
is derivable from the env field. -/
def EntryValue.new (env : EntryEnv) (result : WasmResult) : EntryValue :=
  { env := env, result := result }

/-- Modelled from the spec: creation timestamp, equal to env.batch_time at
creation (spec §3 Value.created_at). -/
def EntryValue.created_at (v : EntryValue) : Nat :=
  v.env.batch_time

/-- Modelled from the spec: seconds since creation, clamped at zero for
backward time (spec §4.C); Nat subtraction is exactly this clamp. -/
def EntryValue.elapsed_seconds (v : EntryValue) (now_time : Nat) : Nat :=
  now_time - v.created_at

/-- Modelled from the spec: fixed structural overhead of the Store reported
by count_bytes even when empty (spec §4.E, capacity-zero edge case). -/
def STRUCTURAL_OVERHEAD : Nat := 8

/-- Modelled from the spec: small fixed overhead of a key for its
fixed-width members, the two principals included (spec §4.A). -/
def KEY_FIXED_OVERHEAD : Nat := 58

/-- Modelled from the spec: fixed overhead of a value: the captured
environment and the fixed-width members (spec §4.D). -/
def VALUE_FIXED_OVERHEAD : Nat := 32

/-- Modelled from the spec: byte size of a key = sizes of its byte-array
fields plus the fixed overhead (spec §4.A, §4.D). -/
def EntryKey.count_bytes (k : EntryKey) : Nat :=
  KEY_FIXED_OVERHEAD + k.method_name.length + k.method_payload.length

/-- Modelled from the spec: byte size of a result: exact length of the
reply bytes, reject strings included (spec §4.D). -/
def WasmResult.count_bytes : WasmResult → Nat
  | WasmResult.Reply bytes => bytes.length
  | WasmResult.Reject reason => reason.length

/-- Modelled from the spec: byte size of a value: the captured environment
plus the result payload (spec §4.D). -/
def EntryValue.count_bytes (v : EntryValue) : Nat :=
  VALUE_FIXED_OVERHEAD + v.result.count_bytes

/-- Byte size of one Store entry: key plus value (spec §4.D). -/
def entryBytes (e : EntryKey × EntryValue) : Nat :=
  e.1.count_bytes + e.2.count_bytes

/-- Total content bytes of a list of Store entries. -/
def contentBytes (l : List (EntryKey × EntryValue)) : Nat :=
  (l.map entryBytes).sum

/-- First value bound to key k in an entry list (at most one entry per key
is live, spec §3 invariant 4). -/
def findEntry : List (EntryKey × EntryValue) → EntryKey → Option EntryValue
  | [], _ => none
  | e :: rest, k => if e.1 = k then some e.2 else findEntry rest k

/-- Remove the (first) entry bound to key k. -/
def removeEntry : List (EntryKey × EntryValue) → EntryKey → List (EntryKey × EntryValue)
  | [], _ => []
  | e :: rest, k => if e.1 = k then rest else e :: removeEntry rest k

/-- Modelled from the spec: the Store, a byte-capped LRU mapping
(spec §4.E).  The entry list is kept in access order: the head is the
least recently accessed entry (the eviction target), the last element the
most recently accessed one. -/
structure Store where
  capacity_bytes : Nat
  entries : List (EntryKey × EntryValue)

/-- Live content bytes of the Store (sum over entries of key+value sizes). -/
def Store.content_bytes (s : Store) : Nat :=
  contentBytes s.entries

/-- Modelled from the spec: reported byte count = live content bytes plus
the fixed structural overhead (spec §4.E count_bytes). -/
def Store.count_bytes (s : Store) : Nat :=
  STRUCTURAL_OVERHEAD + contentBytes s.entries

/-- Modelled from the spec: the eviction loop of put: while total bytes
exceed the capacity and the store is non-empty, evict the LRU entry
(spec §4.E).  Returns (evicted entries in eviction order, kept entries). -/
def evictLoop (cap : Nat) : List (EntryKey × EntryValue) →
    List (EntryKey × EntryValue) × List (EntryKey × EntryValue)
  | [] => ([], [])
  | e :: rest =>
    if cap < contentBytes (e :: rest) then
      let p := evictLoop cap rest
      (e :: p.1, p.2)
    else
      ([], e :: rest)

/-- Modelled from the spec: Store.get: on hit move the entry to the MRU
position, no byte change (spec §4.E). -/
def Store.get (s : Store) (k : EntryKey) : Option EntryValue × Store :=
  match findEntry s.entries k with
  | none => (none, s)
  | some v => (some v, { s with entries := removeEntry s.entries k ++ [(k, v)] })

/-- Modelled from the spec: Store.put: insert at MRU, replacing any entry
already bound to the key (its bytes are released), then evict LRU entries
while over capacity; returns the list of evicted (key, value) pairs
(spec §4.E). -/
def Store.put (s : Store) (k : EntryKey) (v : EntryValue) :
    List (EntryKey × EntryValue) × Store :=
  let inserted := removeEntry s.entries k ++ [(k, v)]
  let p := evictLoop s.capacity_bytes inserted
  (p.1, { s with entries := p.2 })

/-- Modelled from the spec: Store.remove: subtract the bytes, no LRU
reorder (spec §4.E). -/
def Store.remove (s : Store) (k : EntryKey) : Option EntryValue × Store :=
  (findEntry s.entries k, { s with entries := removeEntry s.entries k })

/-- Modelled from the spec: a duration histogram, reduced to its observable
sample count and sample sum (tests.rs get_sample_count / get_sample_sum).
All recorded samples are clamped non-negative, so Nat suffices. -/
structure Histogram where
  sample_count : Nat
  sample_sum : Nat
deriving DecidableEq

/-- Record one sample. -/
def Histogram.observe (h : Histogram) (v : Nat) : Histogram :=
  { sample_count := h.sample_count + 1, sample_sum := h.sample_sum + v }

/-- A fresh histogram with no samples. -/
def Histogram.empty : Histogram :=
  { sample_count := 0, sample_sum := 0 }

/-- Modelled from the spec: the metrics surface of the cache (spec §4.G). -/
structure QueryCacheMetrics where
  hits : Nat
  misses : Nat
  evicted_entries : Nat
  evicted_entries_duration : Histogram
  invalidated_entries : Nat
  invalidated_entries_by_time : Nat
  invalidated_entries_by_canister_version : Nat
  invalidated_entries_by_canister_balance : Nat
  invalidated_entries_duration : Histogram
  count_bytes : Nat
deriving DecidableEq

/-- All counters begin at zero (spec §4.G). -/
def QueryCacheMetrics.empty : QueryCacheMetrics :=
  { hits := 0
    misses := 0
    evicted_entries := 0
    evicted_entries_duration := Histogram.empty
    invalidated_entries := 0
    invalidated_entries_by_time := 0
    invalidated_entries_by_canister_version := 0
    invalidated_entries_by_canister_balance := 0
    invalidated_entries_duration := Histogram.empty
    count_bytes := 0 }

/-- Modelled from the spec: the Cache facade composing the Store and the
metrics (spec §4.F). -/
structure QueryCache where
  enabled : Bool
  store : Store
  metrics : QueryCacheMetrics

/-- Modelled from the spec: outcome of a lookup as seen by the caller;
invalidation is reported as a Miss (spec §4.F). -/
inductive CacheLookupOutcome where
  | Hit (value : EntryValue)
  | Miss
deriving DecidableEq

/-- Modelled from the spec: Cache::new(capacity_bytes, enabled) (spec §6). -/
def QueryCache.new (capacity_bytes : Nat) (enabled : Bool) : QueryCache :=
  { enabled := enabled
    store := { capacity_bytes := capacity_bytes, entries := [] }
    metrics := QueryCacheMetrics.empty }

/-- Modelled from the spec: lookup(key, current_env) (spec §4.F).  Absent
key: Miss, misses+1.  Present with any of the three environment fields
differing: each differing field bumps its own sub-cause counter,
invalidated_entries is bumped once, the entry age relative to
current_env.batch_time is recorded (clamped at 0), the entry is removed,
and the result is a Miss with misses+1.  Present with all fields equal:
Hit, hits+1, LRU position refreshed.  A disabled cache always misses. -/
def QueryCache.lookup (c : QueryCache) (key : EntryKey) (env : EntryEnv) :
    CacheLookupOutcome × QueryCache :=
  if c.enabled = false then
    (CacheLookupOutcome.Miss,
      { c with metrics := { c.metrics with misses := c.metrics.misses + 1 } })
  else
    match findEntry c.store.entries key with
    | none =>
      (CacheLookupOutcome.Miss,
        { c with metrics := { c.metrics with misses := c.metrics.misses + 1 } })
    | some v =>
      if v.env.batch_time ≠ env.batch_time ∨
          v.env.canister_version ≠ env.canister_version ∨
          v.env.canister_balance ≠ env.canister_balance then
        (CacheLookupOutcome.Miss,
          { c with
            store := (c.store.remove key).2
            metrics := { c.metrics with
              misses := c.metrics.misses + 1
              invalidated_entries := c.metrics.invalidated_entries + 1
              invalidated_entries_by_time := c.metrics.invalidated_entries_by_time +
                (if v.env.batch_time ≠ env.batch_time then 1 else 0)
              invalidated_entries_by_canister_version :=
                c.metrics.invalidated_entries_by_canister_version +
                  (if v.env.canister_version ≠ env.canister_version then 1 else 0)
              invalidated_entries_by_canister_balance :=
                c.metrics.invalidated_entries_by_canister_balance +
                  (if v.env.canister_balance ≠ env.canister_balance then 1 else 0)
              invalidated_entries_duration :=
                c.metrics.invalidated_entries_duration.observe
                  (v.elapsed_seconds env.batch_time) } })
      else
        (CacheLookupOutcome.Hit v,
          { c with
            store := (c.store.get key).2
            metrics := { c.metrics with hits := c.metrics.hits + 1 } })

/-- Metric bookkeeping for one evicted entry: evicted_entries+1 and one
age sample relative to the inserting environment's batch time, clamped at
zero (spec §4.F insert step 3). -/
def recordEviction (now_time : Nat) (m : QueryCacheMetrics)
    (e : EntryKey × EntryValue) : QueryCacheMetrics :=
  { m with
    evicted_entries := m.evicted_entries + 1
    evicted_entries_duration :=
      m.evicted_entries_duration.observe (e.2.elapsed_seconds now_time) }

/-- Modelled from the spec: insert(key, executed_env, result) (spec §4.F):
build the value, put it, account every eviction, refresh the count_bytes
gauge.  A disabled cache makes insert a no-op. -/
def QueryCache.insert (c : QueryCache) (key : EntryKey) (env : EntryEnv)
    (result : WasmResult) : QueryCache :=
  if c.enabled = false then c
  else
    let value := EntryValue.new env result
    let p := c.store.put key value
    let m := p.1.foldl (recordEviction env.batch_time) c.metrics
    { c with
      store := p.2
      metrics := { m with count_bytes := Store.count_bytes p.2 } }

/-- Modelled from the spec: Cache.count_bytes() (spec §6). -/
def QueryCache.count_bytes (c : QueryCache) : Nat :=
  c.store.count_bytes

/-- Time constant used by the tests (ic_types::time::GENESIS), in whole
seconds; its exact value is irrelevant to every property proved below. -/
def GENESIS : Nat := 1620328630

/-- A sample key used in concrete scenarios. -/
def exKey : EntryKey :=
  { source := 1, receiver := 7, method_name := "query", method_payload := [42] }

/-- A sample environment used in concrete scenarios. -/
def exEnv : EntryEnv :=
  { batch_time := GENESIS, canister_version := 1, canister_balance := 100 }

/-- A sample result used in concrete scenarios. -/
def exResult : WasmResult :=
  WasmResult.Reply [42]

/-- C1 scenario (test query_cache_metrics_work): the first lookup, before
any insert, on a fresh enabled cache. -/
def c1Run1 : CacheLookupOutcome × QueryCache :=
  (QueryCache.new 100000 true).lookup exKey exEnv

/-- C1 scenario: the insert following the first miss. -/
def c1Run2 : QueryCache :=
  c1Run1.2.insert exKey exEnv exResult

/-- C1 scenario: the second lookup, after the insert. -/
def c1Run3 : CacheLookupOutcome × QueryCache :=
  c1Run2.lookup exKey exEnv

/-- C2 scenario: an enabled cache holding one entry captured at exEnv. -/
def c2Cache : QueryCache :=
  { enabled := true
    store := { capacity_bytes := 100000, entries := [(exKey, EntryValue.new exEnv exResult)] }
    metrics := QueryCacheMetrics.empty }

/-- C2 scenario: a lookup environment differing from exEnv in batch_time
and canister_version but not in canister_balance. -/
def c2LookupEnv : EntryEnv :=
  { batch_time := GENESIS + 5, canister_version := 2, canister_balance := 100 }

/-- C4 scenario (test query_cache_metrics_evicted_entries_count_bytes_work):
a 5000-byte payload, stored twice per entry (in the key and in the reply). -/
def c4Payload : List Nat := List.replicate 5000 1

/-- C4 scenario: the i-th key; only the source principal varies. -/
def c4Key (i : Nat) : EntryKey :=
  { source := i, receiver := 7, method_name := "query", method_payload := c4Payload }

/-- C4 scenario: the i-th environment; batch_time advances 2 seconds per
insert. -/
def c4Env (i : Nat) : EntryEnv :=
  { batch_time := GENESIS + 2 * i, canister_version := 1, canister_balance := 100 }

/-- C4 scenario: one insert of the i-th entry. -/
def c4Step (c : QueryCache) (i : Nat) : QueryCache :=
  c.insert (c4Key i) (c4Env i) (WasmResult.Reply c4Payload)

/-- C4 scenario: five distinct entries of 10095 bytes each (10000 bytes of
payload and reply plus key and environment overhead) inserted 2 seconds
apart into a cache of capacity 20000 bytes. -/
def c4Final : QueryCache :=
  [0, 1, 2, 3, 4].foldl c4Step (QueryCache.new 20000 true)

/-- C4 scenario: the expected cache state after the inserts 0..i: only the
i-th entry lives, i entries were evicted, each 2 seconds old at eviction. -/
def c4StateAfter (i : Nat) : QueryCache :=
  { enabled := true
    store := { capacity_bytes := 20000
               entries := [(c4Key i, EntryValue.new (c4Env i) (WasmResult.Reply c4Payload))] }
    metrics := { hits := 0
                 misses := 0
                 evicted_entries := i
                 evicted_entries_duration := { sample_count := i, sample_sum := 2 * i }
                 invalidated_entries := 0
                 invalidated_entries_by_time := 0
                 invalidated_entries_by_canister_version := 0
                 invalidated_entries_by_canister_balance := 0
                 invalidated_entries_duration := Histogram.empty
                 count_bytes := 10103 } }

/-- C5 scenario: a cache holding one entry created at GENESIS. -/
def c5InvalCache : QueryCache :=
  { enabled := true
    store := { capacity_bytes := 100000, entries := [(exKey, EntryValue.new exEnv exResult)] }
    metrics := QueryCacheMetrics.empty }

/-- C5 scenario: batch_time moved backward by one second. -/
def c5BackEnv : EntryEnv :=
  { batch_time := GENESIS - 1, canister_version := 1, canister_balance := 100 }

/-- C5 scenario: the invalidating lookup with backward time (test
query_cache_env_invalidated_entries_negative_duration_works). -/
def c5Inval : QueryCache :=
  (c5InvalCache.lookup exKey c5BackEnv).2

/-- C5 scenario: a second key for the backward-time eviction run. -/
def c5Key2 : EntryKey :=
  { source := 2, receiver := 7, method_name := "query", method_payload := [7] }

/-- C5 scenario: a 60-byte reply; each entry occupies 156 bytes, so one
entry fits a 200-byte cache but two do not. -/
def c5Reply : WasmResult := WasmResult.Reply (List.replicate 60 1)

/-- C5 scenario: environment of the first insert. -/
def c5Env1 : EntryEnv :=
  { batch_time := GENESIS, canister_version := 1, canister_balance := 100 }

/-- C5 scenario: environment of the second insert, 2 seconds earlier. -/
def c5Env2 : EntryEnv :=
  { batch_time := GENESIS - 2, canister_version := 1, canister_balance := 100 }

/-- C5 scenario: backward-time eviction (test
query_cache_metrics_evicted_entries_negative_duration_works): the second
insert evicts the first entry, whose age sample clamps to zero. -/
def c5Evict : QueryCache :=
  ((QueryCache.new 200 true).insert exKey c5Env1 c5Reply).insert c5Key2 c5Env2 c5Reply

/-- C6 scenario: four keys, each differing from exKey in exactly one of the
four fields (source, receiver, method_name, method_payload). -/
def c6Keys : List EntryKey :=
  [{ exKey with source := 2 },
   { exKey with receiver := 8 },
   { exKey with method_name := "query2" },
   { exKey with method_payload := [43] }]

/-- C6 scenario: per key, a lookup (expected miss), an insert, and a second
lookup (expected hit). -/
def c6Step (c : QueryCache) (k : EntryKey) : QueryCache :=
  ((((c.lookup k exEnv).2).insert k exEnv exResult).lookup k exEnv).2

/-- C6 scenario (tests query_cache_key_different_*): the full run over the
four keys. -/
def c6Final : QueryCache :=
  c6Keys.foldl c6Step (QueryCache.new 100000 true)

/-- C7 scenario: environments advancing one second per step. -/
def c7Env (i : Nat) : EntryEnv :=
  { batch_time := GENESIS + i, canister_version := 1, canister_balance := 100 }

/-- C7 scenario: one insert-invalidate cycle on the single key exKey. -/
def c7Step (c : QueryCache) (i : Nat) : QueryCache :=
  ((c.insert exKey (c7Env i) exResult).lookup exKey (c7Env (i + 1))).2

/-- C7 scenario (test query_cache_metrics_invalidated_entries_work):
repeated insert-invalidate-reinsert cycles on one key. -/
def c7Final : QueryCache :=
  [0, 1, 2].foldl c7Step (QueryCache.new 100000 true)

/-- C9 witness scenario: a large cached value (200-byte reply). -/
def c9BigValue : EntryValue :=
  EntryValue.new exEnv (WasmResult.Reply (List.replicate 200 1))

/-- C9 witness scenario: the lookup environment with a changed balance. -/
def c9Env2 : EntryEnv :=
  { batch_time := GENESIS, canister_version := 1, canister_balance := 42 }

/-- C9 witness scenario: the strictly smaller replacement reply. -/
def c9SmallReply : WasmResult :=
  WasmResult.Reply (List.replicate 42 2)

lemma contentBytes_nil : contentBytes [] = 0 := rfl

lemma contentBytes_cons (e : EntryKey × EntryValue) (l : List (EntryKey × EntryValue)) :
    contentBytes (e :: l) = entryBytes e + contentBytes l := by
  simp [contentBytes]

lemma contentBytes_append (l l' : List (EntryKey × EntryValue)) :
    contentBytes (l ++ l') = contentBytes l + contentBytes l' := by
  simp [contentBytes]

lemma entryBytes_pos (e : EntryKey × EntryValue) : 0 < entryBytes e := by
  simp [entryBytes, EntryKey.count_bytes, EntryValue.count_bytes,
    KEY_FIXED_OVERHEAD, VALUE_FIXED_OVERHEAD]

lemma evictLoop_content_le (cap : Nat) (l : List (EntryKey × EntryValue)) :
    contentBytes (evictLoop cap l).2 ≤ cap := by
  induction l with
  | nil => simp [evictLoop, contentBytes_nil]
  | cons e rest ih =>
    by_cases h : cap < contentBytes (e :: rest)
    · simpa [evictLoop, h] using ih
    · simp only [evictLoop, if_neg h]
      exact Nat.le_of_not_lt h

lemma evictLoop_no_evict (cap : Nat) (l : List (EntryKey × EntryValue))
    (h : contentBytes l ≤ cap) : evictLoop cap l = ([], l) := by
  cases l with
  | nil => rfl
  | cons e rest =>
    have h' : ¬ cap < contentBytes (e :: rest) := by omega
    simp [evictLoop, h']

lemma evictLoop_keeps_last (cap : Nat) (e : EntryKey × EntryValue)
    (hfit : entryBytes e ≤ cap) (l : List (EntryKey × EntryValue)) :
    ∃ l', (evictLoop cap (l ++ [e])).2 = l' ++ [e] ∧ ∀ x ∈ l', x ∈ l := by
  induction l with
  | nil =>
    refine ⟨[], ?_, by simp⟩
    have h : ¬ cap < contentBytes ([e] : List (EntryKey × EntryValue)) := by
      simp [contentBytes_cons, contentBytes_nil]
      omega
    simp [evictLoop, h]
  | cons a rest ih =>
    by_cases h : cap < contentBytes (a :: (rest ++ [e]))
    · obtain ⟨l', hkeep, hmem⟩ := ih
      refine ⟨l', ?_, fun x hx => List.mem_cons_of_mem a (hmem x hx)⟩
      simpa [evictLoop, h] using hkeep
    · refine ⟨a :: rest, ?_, fun x hx => hx⟩
      simp [evictLoop, h]

lemma findEntry_append_last (l : List (EntryKey × EntryValue)) (k : EntryKey)
    (v : EntryValue) (h : ∀ x ∈ l, x.1 ≠ k) :
    findEntry (l ++ [(k, v)]) k = some v := by
  induction l with
  | nil => simp [findEntry]
  | cons a rest ih =>
    have ha : a.1 ≠ k := h a (List.mem_cons_self a rest)
    simp only [List.cons_append, findEntry, if_neg ha]
    exact ih fun x hx => h x (List.mem_cons_of_mem a hx)

lemma findEntry_eq_none (l : List (EntryKey × EntryValue)) (k : EntryKey)
    (h : ∀ x ∈ l, x.1 ≠ k) : findEntry l k = none := by
  induction l with
  | nil => rfl
  | cons a rest ih =>
    have ha : a.1 ≠ k := h a (List.mem_cons_self a rest)
    simp only [findEntry, if_neg ha]
    exact ih fun x hx => h x (List.mem_cons_of_mem a hx)

lemma removeEntry_keys_ne (l : List (EntryKey × EntryValue)) (k : EntryKey)
    (hnodup : (l.map Prod.fst).Nodup) :
    ∀ x ∈ removeEntry l k, x.1 ≠ k := by
  induction l with
  | nil => simp [removeEntry]
  | cons a rest ih =>
    simp only [List.map_cons, List.nodup_cons] at hnodup
    by_cases ha : a.1 = k
    · intro x hx
      simp only [removeEntry, if_pos ha] at hx
      intro hxk
      apply hnodup.1
      have hmem : x.1 ∈ List.map Prod.fst rest := List.mem_map_of_mem Prod.fst hx
      rw [ha, ← hxk]
      exact hmem
    · intro x hx
      simp only [removeEntry, if_neg ha] at hx
      rcases List.mem_cons.mp hx with rfl | hx'
      · exact ha
      · exact ih hnodup.2 x hx'

lemma removeEntry_sub (l : List (EntryKey × EntryValue)) (k : EntryKey) :
    ∀ x ∈ removeEntry l k, x ∈ l := by
  induction l with
  | nil => simp [removeEntry]
  | cons a rest ih =>
    by_cases ha : a.1 = k
    · intro x hx
      simp only [removeEntry, if_pos ha] at hx
      exact List.mem_cons_of_mem a hx
    · intro x hx
      simp only [removeEntry, if_neg ha] at hx
      rcases List.mem_cons.mp hx with rfl | hx'
      · exact List.mem_cons_self x rest
      · exact List.mem_cons_of_mem a (ih x hx')

lemma evictLoop_capacity_zero (l : List (EntryKey × EntryValue)) :
    evictLoop 0 l = (l, []) := by
  induction l with
  | nil => rfl
  | cons e rest ih =>
    have h : 0 < contentBytes (e :: rest) := by
      have := entryBytes_pos e
      rw [contentBytes_cons]
      omega
    simp [evictLoop, h, ih]

lemma foldl_recordEviction_evicted (t : Nat) (l : List (EntryKey × EntryValue))
    (m : QueryCacheMetrics) :
    (l.foldl (recordEviction t) m).evicted_entries = m.evicted_entries + l.length := by
  induction l generalizing m with
  | nil => simp
  | cons e rest ih =>
    simp only [List.foldl_cons, List.length_cons, ih, recordEviction]
    omega

lemma foldl_recordEviction_count (t : Nat) (l : List (EntryKey × EntryValue))
    (m : QueryCacheMetrics) :
    (l.foldl (recordEviction t) m).evicted_entries_duration.sample_count
      = m.evicted_entries_duration.sample_count + l.length := by
  induction l generalizing m with
  | nil => simp
  | cons e rest ih =>
    simp only [List.foldl_cons, List.length_cons, ih, recordEviction, Histogram.observe]
    omega

lemma foldl_recordEviction_sum (t : Nat) (l : List (EntryKey × EntryValue))
    (m : QueryCacheMetrics) :
    (l.foldl (recordEviction t) m).evicted_entries_duration.sample_sum
      = m.evicted_entries_duration.sample_sum
        + (l.map (fun e => e.2.elapsed_seconds t)).sum := by
  induction l generalizing m with
  | nil => simp
  | cons e rest ih =>
    simp only [List.foldl_cons, List.map_cons, List.sum_cons, ih, recordEviction,
      Histogram.observe]
    omega

lemma foldl_recordEviction_invalidated (t : Nat) (l : List (EntryKey × EntryValue))
    (m : QueryCacheMetrics) :
    (l.foldl (recordEviction t) m).invalidated_entries = m.invalidated_entries := by
  induction l generalizing m with
  | nil => rfl
  | cons e rest ih =>
    simp only [List.foldl_cons, ih, recordEviction]

lemma removeEntry_of_not_mem (l : List (EntryKey × EntryValue)) (k : EntryKey)
    (h : ∀ x ∈ l, x.1 ≠ k) : removeEntry l k = l := by
  induction l with
  | nil => rfl
  | cons a rest ih =>
    have ha : a.1 ≠ k := h a (List.mem_cons_self a rest)
    simp only [removeEntry, if_neg ha]
    rw [ih fun x hx => h x (List.mem_cons_of_mem a hx)]

lemma insert_enabled (c : QueryCache) (k : EntryKey) (env : EntryEnv) (r : WasmResult)
    (hen : c.enabled = true) :
    c.insert k env r =
      { c with
        store := (c.store.put k (EntryValue.new env r)).2
        metrics :=
          { (c.store.put k (EntryValue.new env r)).1.foldl
              (recordEviction env.batch_time) c.metrics with
            count_bytes := Store.count_bytes (c.store.put k (EntryValue.new env r)).2 } } := by
  simp [QueryCache.insert, hen]

lemma lookup_absent (c : QueryCache) (k : EntryKey) (env : EntryEnv)
    (hen : c.enabled = true) (hfind : findEntry c.store.entries k = none) :
    c.lookup k env =
      (CacheLookupOutcome.Miss,
        { c with metrics := { c.metrics with misses := c.metrics.misses + 1 } }) := by
  simp [QueryCache.lookup, hen, hfind]

lemma lookup_found_hit (c : QueryCache) (k : EntryKey) (env : EntryEnv) (v : EntryValue)
    (hen : c.enabled = true) (hfind : findEntry c.store.entries k = some v)
    (henv : v.env = env) :
    c.lookup k env =
      (CacheLookupOutcome.Hit v,
        { c with
          store := (c.store.get k).2
          metrics := { c.metrics with hits := c.metrics.hits + 1 } }) := by
  simp [QueryCache.lookup, hen, hfind, henv]

lemma lookup_invalidated (c : QueryCache) (k : EntryKey) (env : EntryEnv) (v : EntryValue)
    (hen : c.enabled = true) (hfind : findEntry c.store.entries k = some v)
    (hdiff : v.env.batch_time ≠ env.batch_time ∨
      v.env.canister_version ≠ env.canister_version ∨
      v.env.canister_balance ≠ env.canister_balance) :
    c.lookup k env =
      (CacheLookupOutcome.Miss,
        { c with
          store := (c.store.remove k).2
          metrics := { c.metrics with
            misses := c.metrics.misses + 1
            invalidated_entries := c.metrics.invalidated_entries + 1
            invalidated_entries_by_time := c.metrics.invalidated_entries_by_time +
              (if v.env.batch_time ≠ env.batch_time then 1 else 0)
            invalidated_entries_by_canister_version :=
              c.metrics.invalidated_entries_by_canister_version +
                (if v.env.canister_version ≠ env.canister_version then 1 else 0)
            invalidated_entries_by_canister_balance :=
              c.metrics.invalidated_entries_by_canister_balance +
                (if v.env.canister_balance ≠ env.canister_balance then 1 else 0)
            invalidated_entries_duration :=
              c.metrics.invalidated_entries_duration.observe
                (v.elapsed_seconds env.batch_time) } }) := by
  simp only [QueryCache.lookup, hen, Bool.true_eq_false, if_false, hfind, if_pos hdiff]

lemma put_entries_keep_new (s : Store) (k : EntryKey) (v : EntryValue)
    (hnodup : (s.entries.map Prod.fst).Nodup)
    (hfit : entryBytes (k, v) ≤ s.capacity_bytes) :
    findEntry (s.put k v).2.entries k = some v := by
  obtain ⟨l', hkeep, hmem⟩ :=
    evictLoop_keeps_last s.capacity_bytes (k, v) hfit (removeEntry s.entries k)
  have hentries : (s.put k v).2.entries
      = (evictLoop s.capacity_bytes (removeEntry s.entries k ++ [(k, v)])).2 := rfl
  rw [hentries, hkeep]
  exact findEntry_append_last l' k v fun x hx =>
    removeEntry_keys_ne s.entries k hnodup x (hmem x hx)

/-- C3: after every put the Store's live content bytes are at most
capacity_bytes (so in particular the Store is within capacity or empty), a
key replacement subtracts the replaced entry's bytes before adding the new
entry's bytes, and count_bytes never settles above the capacity plus the
fixed structural overhead. -/
theorem C3_put_capacity_invariant (s : Store) (k : EntryKey) (v : EntryValue) :
    (Store.content_bytes (s.put k v).2 ≤ s.capacity_bytes ∨ (s.put k v).2.entries = []) ∧
    Store.content_bytes (s.put k v).2 ≤ s.capacity_bytes ∧
    contentBytes (removeEntry s.entries k ++ [(k, v)])
      = contentBytes (removeEntry s.entries k) + entryBytes (k, v) ∧
    Store.count_bytes (s.put k v).2 ≤ s.capacity_bytes + STRUCTURAL_OVERHEAD := by
  have hent : (s.put k v).2.entries
      = (evictLoop s.capacity_bytes (removeEntry s.entries k ++ [(k, v)])).2 := rfl
  have hc : Store.content_bytes (s.put k v).2 ≤ s.capacity_bytes := by
    rw [Store.content_bytes, hent]
    exact evictLoop_content_le s.capacity_bytes _
  refine ⟨Or.inl hc, hc, ?_, ?_⟩
  · rw [contentBytes_append, contentBytes_cons, contentBytes_nil]
    omega
  · have hcount : Store.count_bytes (s.put k v).2
        = STRUCTURAL_OVERHEAD + Store.content_bytes (s.put k v).2 := rfl
    rw [hcount]
    omega

/-- C5: the elapsed-time computation equals max(0, now_time - batch_time),
so a reference time earlier than the creation time gives exactly 0: the
first lookup scenario checks both directions around GENESIS (test
query_cache_entry_value_elapsed_seconds); and a sample is still recorded,
with value 0, when batch_time moved backward, both for the invalidation
histogram (test query_cache_env_invalidated_entries_negative_duration_works)
and for the eviction histogram (test
query_cache_metrics_evicted_entries_negative_duration_works).  Samples are
Nat, hence never negative. -/
theorem C5_clamped_durations :
    (∀ (v : EntryValue) (now_time : Nat),
      ((v.elapsed_seconds now_time : Int)
        = max 0 ((now_time : Int) - (v.env.batch_time : Int)))) ∧
    (EntryValue.new exEnv exResult).elapsed_seconds (GENESIS + 2) = 2 ∧
    (EntryValue.new exEnv exResult).elapsed_seconds (GENESIS - 2) = 0 ∧
    c5Inval.metrics.invalidated_entries_duration.sample_count = 1 ∧
    c5Inval.metrics.invalidated_entries_duration.sample_sum = 0 ∧
    c5Evict.metrics.evicted_entries_duration.sample_count = 1 ∧
    c5Evict.metrics.evicted_entries_duration.sample_sum = 0 := by
  refine ⟨?_, by decide, by decide, by decide, by decide, by decide, by decide⟩
  intro v now_time
  simp only [EntryValue.elapsed_seconds, EntryValue.created_at]
  omega

/-- C2: for a cached entry whose captured environment differs from the
lookup environment in a non-empty subset of the three fields, lookup
removes the entry, returns Miss while incrementing misses, increments
invalidated_entries exactly once and records one duration sample, and
increments exactly the sub-cause counters of the differing fields, leaving
the others unchanged. -/
theorem C2_invalidation_postcondition (c : QueryCache) (k : EntryKey) (env : EntryEnv)
    (v : EntryValue)
    (hen : c.enabled = true)
    (hnodup : (c.store.entries.map Prod.fst).Nodup)
    (hfind : findEntry c.store.entries k = some v)
    (hdiff : v.env.batch_time ≠ env.batch_time ∨
      v.env.canister_version ≠ env.canister_version ∨
      v.env.canister_balance ≠ env.canister_balance) :
    (c.lookup k env).1 = CacheLookupOutcome.Miss ∧
    findEntry (c.lookup k env).2.store.entries k = none ∧
    (c.lookup k env).2.metrics.misses = c.metrics.misses + 1 ∧
    (c.lookup k env).2.metrics.invalidated_entries = c.metrics.invalidated_entries + 1 ∧
    (c.lookup k env).2.metrics.invalidated_entries_duration.sample_count
      = c.metrics.invalidated_entries_duration.sample_count + 1 ∧
    (c.lookup k env).2.metrics.invalidated_entries_by_time
      = c.metrics.invalidated_entries_by_time
        + (if v.env.batch_time ≠ env.batch_time then 1 else 0) ∧
    (c.lookup k env).2.metrics.invalidated_entries_by_canister_version
      = c.metrics.invalidated_entries_by_canister_version
        + (if v.env.canister_version ≠ env.canister_version then 1 else 0) ∧
    (c.lookup k env).2.metrics.invalidated_entries_by_canister_balance
      = c.metrics.invalidated_entries_by_canister_balance
        + (if v.env.canister_balance ≠ env.canister_balance then 1 else 0) := by
  rw [lookup_invalidated c k env v hen hfind hdiff]
  refine ⟨rfl, ?_, rfl, rfl, rfl, rfl, rfl, rfl⟩
  exact findEntry_eq_none _ _ (removeEntry_keys_ne c.store.entries k hnodup)

/-- C2 witness: a concrete invalidation where batch_time and
canister_version differ but canister_balance does not. -/
theorem C2_invalidation_postcondition_witness :
    (c2Cache.lookup exKey c2LookupEnv).1 = CacheLookupOutcome.Miss ∧
    findEntry (c2Cache.lookup exKey c2LookupEnv).2.store.entries exKey = none ∧
    (c2Cache.lookup exKey c2LookupEnv).2.metrics.misses = c2Cache.metrics.misses + 1 ∧
    (c2Cache.lookup exKey c2LookupEnv).2.metrics.invalidated_entries
      = c2Cache.metrics.invalidated_entries + 1 ∧
    (c2Cache.lookup exKey c2LookupEnv).2.metrics.invalidated_entries_duration.sample_count
      = c2Cache.metrics.invalidated_entries_duration.sample_count + 1 ∧
    (c2Cache.lookup exKey c2LookupEnv).2.metrics.invalidated_entries_by_time
      = c2Cache.metrics.invalidated_entries_by_time
        + (if (EntryValue.new exEnv exResult).env.batch_time ≠ c2LookupEnv.batch_time
            then 1 else 0) ∧
    (c2Cache.lookup exKey c2LookupEnv).2.metrics.invalidated_entries_by_canister_version
      = c2Cache.metrics.invalidated_entries_by_canister_version
        + (if (EntryValue.new exEnv exResult).env.canister_version
              ≠ c2LookupEnv.canister_version then 1 else 0) ∧
    (c2Cache.lookup exKey c2LookupEnv).2.metrics.invalidated_entries_by_canister_balance
      = c2Cache.metrics.invalidated_entries_by_canister_balance
        + (if (EntryValue.new exEnv exResult).env.canister_balance
              ≠ c2LookupEnv.canister_balance then 1 else 0) :=
  C2_invalidation_postcondition c2Cache exKey c2LookupEnv (EntryValue.new exEnv exResult)
    rfl (by decide) (by decide) (by decide)

/-- C1 counterexample: on an enabled cache of capacity 0 (spec §4.E
capacity-zero semantics, scenario S7) an insert is immediately evicted, so
the immediate lookup returns Miss, not a Hit: the claim's unconditional
hit-after-insert fails. -/
theorem C1_counterexample :
    ((QueryCache.new 0 true).enabled = true) ∧
    (((QueryCache.new 0 true).insert exKey exEnv exResult).lookup exKey exEnv).1
      = CacheLookupOutcome.Miss := by decide

/-- C1 (amended): provided the inserted entry fits the capacity (so that
the put does not evict it) and the cache is enabled with unique live keys,
an immediate lookup after insert(K, E, R) returns Hit(V) with V.result = R
and V.env = E and increments hits; and in the concrete miss-insert-hit
scenario (test query_cache_metrics_work) the first lookup misses with
counters (hits = 0, misses = 1) and the second hits with counters
(hits = 1, misses = 1). -/
theorem C1_hit_after_insert (c : QueryCache) (k : EntryKey) (env : EntryEnv)
    (r : WasmResult)
    (hen : c.enabled = true)
    (hnodup : (c.store.entries.map Prod.fst).Nodup)
    (hfit : entryBytes (k, EntryValue.new env r) ≤ c.store.capacity_bytes) :
    (((c.insert k env r).lookup k env).1
      = CacheLookupOutcome.Hit (EntryValue.new env r)) ∧
    (EntryValue.new env r).result = r ∧
    (EntryValue.new env r).env = env ∧
    ((c.insert k env r).lookup k env).2.metrics.hits
      = (c.insert k env r).metrics.hits + 1 ∧
    (c1Run1.1 = CacheLookupOutcome.Miss ∧
     c1Run1.2.metrics.hits = 0 ∧ c1Run1.2.metrics.misses = 1 ∧
     c1Run3.1 = CacheLookupOutcome.Hit (EntryValue.new exEnv exResult) ∧
     c1Run3.2.metrics.hits = 1 ∧ c1Run3.2.metrics.misses = 1) := by
  have hen' : (c.insert k env r).enabled = true := by
    rw [insert_enabled c k env r hen]
    exact hen
  have hfind : findEntry (c.insert k env r).store.entries k
      = some (EntryValue.new env r) := by
    rw [insert_enabled c k env r hen]
    exact put_entries_keep_new c.store k (EntryValue.new env r) hnodup hfit
  rw [lookup_found_hit (c.insert k env r) k env (EntryValue.new env r) hen' hfind rfl]
  exact ⟨rfl, rfl, rfl, rfl, by decide⟩

/-- C1 witness: the amended hit-after-insert at a concrete fitting entry. -/
theorem C1_hit_after_insert_witness :
    ((((QueryCache.new 100000 true).insert exKey exEnv exResult).lookup exKey exEnv).1
      = CacheLookupOutcome.Hit (EntryValue.new exEnv exResult)) ∧
    (EntryValue.new exEnv exResult).result = exResult ∧
    (EntryValue.new exEnv exResult).env = exEnv ∧
    (((QueryCache.new 100000 true).insert exKey exEnv exResult).lookup exKey exEnv).2.metrics.hits
      = ((QueryCache.new 100000 true).insert exKey exEnv exResult).metrics.hits + 1 ∧
    (c1Run1.1 = CacheLookupOutcome.Miss ∧
     c1Run1.2.metrics.hits = 0 ∧ c1Run1.2.metrics.misses = 1 ∧
     c1Run3.1 = CacheLookupOutcome.Hit (EntryValue.new exEnv exResult) ∧
     c1Run3.2.metrics.hits = 1 ∧ c1Run3.2.metrics.misses = 1) :=
  C1_hit_after_insert (QueryCache.new 100000 true) exKey exEnv exResult
    rfl (by decide) (by decide)

/-- C6: key equality holds exactly when all four fields agree; a lookup
whose key differs from the single cached key never hits it (Miss plus a
miss count); and the concrete four-key run (each key differing from the
base in exactly one field) is a miss then a hit per key, ending with
misses = 4 and hits = 4. -/
theorem C6_key_discrimination :
    (∀ k1 k2 : EntryKey, k1 = k2 ↔
      (k1.source = k2.source ∧ k1.receiver = k2.receiver ∧
       k1.method_name = k2.method_name ∧ k1.method_payload = k2.method_payload)) ∧
    (∀ (k k' : EntryKey) (v : EntryValue) (env : EntryEnv) (cap : Nat)
        (m : QueryCacheMetrics), k' ≠ k →
      (QueryCache.lookup
          { enabled := true
            store := { capacity_bytes := cap, entries := [(k', v)] }
            metrics := m } k env).1 = CacheLookupOutcome.Miss ∧
      (QueryCache.lookup
          { enabled := true
            store := { capacity_bytes := cap, entries := [(k', v)] }
            metrics := m } k env).2.metrics.misses = m.misses + 1) ∧
    (c6Final.metrics.misses = 4 ∧ c6Final.metrics.hits = 4) := by
  refine ⟨?_, ?_, by decide⟩
  · intro k1 k2
    constructor
    · intro h
      subst h
      exact ⟨rfl, rfl, rfl, rfl⟩
    · intro ⟨h1, h2, h3, h4⟩
      cases k1
      cases k2
      simp_all
  · intro k k' v env cap m hne
    have hfind : findEntry [(k', v)] k = none := by
      simp [findEntry, hne]
    rw [lookup_absent _ k env rfl hfind]
    exact ⟨rfl, rfl⟩

/-- C6 witness: a concrete key differing only in source never hits the
cached base key. -/
theorem C6_key_discrimination_witness :
    (QueryCache.lookup
        { enabled := true
          store := { capacity_bytes := 1000, entries := [(exKey, EntryValue.new exEnv exResult)] }
          metrics := QueryCacheMetrics.empty } { exKey with source := 2 } exEnv).1
      = CacheLookupOutcome.Miss ∧
    (QueryCache.lookup
        { enabled := true
          store := { capacity_bytes := 1000, entries := [(exKey, EntryValue.new exEnv exResult)] }
          metrics := QueryCacheMetrics.empty } { exKey with source := 2 } exEnv).2.metrics.misses
      = QueryCacheMetrics.empty.misses + 1 :=
  C6_key_discrimination.2.1 { exKey with source := 2 } exKey (EntryValue.new exEnv exResult)
    exEnv 1000 QueryCacheMetrics.empty (by decide)

/-- C7: a lookup never changes evicted_entries (so invalidation is not an
eviction); an insert whose resulting content fits the capacity (in
particular a replacement of an existing key by a fitting entry) leaves
evicted_entries unchanged; and a concrete run of three
insert-invalidate-reinsert cycles on one key keeps evicted_entries at 0
while invalidated_entries reaches 3. -/
theorem C7_replacement_not_eviction :
    (∀ (c : QueryCache) (k : EntryKey) (env : EntryEnv),
      (c.lookup k env).2.metrics.evicted_entries = c.metrics.evicted_entries) ∧
    (∀ (c : QueryCache) (k : EntryKey) (env : EntryEnv) (r : WasmResult),
      contentBytes (removeEntry c.store.entries k ++ [(k, EntryValue.new env r)])
          ≤ c.store.capacity_bytes →
      (c.insert k env r).metrics.evicted_entries = c.metrics.evicted_entries) ∧
    (c7Final.metrics.evicted_entries = 0 ∧ c7Final.metrics.invalidated_entries = 3) := by
  refine ⟨?_, ?_, by decide⟩
  · intro c k env
    unfold QueryCache.lookup
    split
    · rfl
    · split
      · rfl
      · split
        · rfl
        · rfl
  · intro c k env r h
    by_cases hen : c.enabled = true
    · rw [insert_enabled c k env r hen]
      have hput : (c.store.put k (EntryValue.new env r)).1 = [] := by
        show (evictLoop c.store.capacity_bytes
          (removeEntry c.store.entries k ++ [(k, EntryValue.new env r)])).1 = []
        rw [evictLoop_no_evict _ _ h]
      rw [hput]
      rfl
    · have hen' : c.enabled = false := by
        revert hen
        cases c.enabled <;> simp
      simp [QueryCache.insert, hen']

/-- C7 witness: a concrete invalidating lookup and a concrete fitting
insert, neither of which changes evicted_entries. -/
theorem C7_replacement_not_eviction_witness :
    ((c2Cache.lookup exKey c2LookupEnv).2.metrics.evicted_entries
      = c2Cache.metrics.evicted_entries) ∧
    (((QueryCache.new 100000 true).insert exKey exEnv exResult).metrics.evicted_entries
      = (QueryCache.new 100000 true).metrics.evicted_entries) :=
  ⟨C7_replacement_not_eviction.1 c2Cache exKey c2LookupEnv,
   C7_replacement_not_eviction.2.1 (QueryCache.new 100000 true) exKey exEnv exResult
     (by decide)⟩

/-- C8: with capacity_bytes = 0 every insert (a total function, so the
eviction loop is bounded by construction) leaves the Store with zero live
content entries, a lookup right after the insert misses, and count_bytes
equals the fixed structural overhead before and after every insert. -/
theorem C8_capacity_zero (c : QueryCache) (k : EntryKey) (env : EntryEnv)
    (r : WasmResult)
    (hen : c.enabled = true) (hcap : c.store.capacity_bytes = 0) :
    (c.insert k env r).store.entries = [] ∧
    ((c.insert k env r).lookup k env).1 = CacheLookupOutcome.Miss ∧
    (c.insert k env r).count_bytes = STRUCTURAL_OVERHEAD ∧
    (QueryCache.new 0 true).count_bytes = STRUCTURAL_OVERHEAD := by
  have hstore : (c.store.put k (EntryValue.new env r)).2.entries = [] := by
    show (evictLoop c.store.capacity_bytes
      (removeEntry c.store.entries k ++ [(k, EntryValue.new env r)])).2 = []
    rw [hcap, evictLoop_capacity_zero]
  have hentries : (c.insert k env r).store.entries = [] := by
    rw [insert_enabled c k env r hen]
    exact hstore
  have hen' : (c.insert k env r).enabled = true := by
    rw [insert_enabled c k env r hen]
    exact hen
  refine ⟨hentries, ?_, ?_, by decide⟩
  · have hfind : findEntry (c.insert k env r).store.entries k = none := by
      rw [hentries]
      rfl
    rw [lookup_absent _ k env hen' hfind]
  · show (c.insert k env r).store.count_bytes = STRUCTURAL_OVERHEAD
    rw [Store.count_bytes, hentries, contentBytes_nil]
    omega

/-- C8 witness: a concrete capacity-0 run. -/
theorem C8_capacity_zero_witness :
    ((QueryCache.new 0 true).insert exKey exEnv exResult).store.entries = [] ∧
    (((QueryCache.new 0 true).insert exKey exEnv exResult).lookup exKey exEnv).1
      = CacheLookupOutcome.Miss ∧
    ((QueryCache.new 0 true).insert exKey exEnv exResult).count_bytes
      = STRUCTURAL_OVERHEAD ∧
    (QueryCache.new 0 true).count_bytes = STRUCTURAL_OVERHEAD :=
  C8_capacity_zero (QueryCache.new 0 true) exKey exEnv exResult rfl rfl

lemma insert_into_empty (c : QueryCache) (k : EntryKey) (env : EntryEnv)
    (r : WasmResult)
    (hen : c.enabled = true)
    (hem : c.store.entries = [])
    (hfit : entryBytes (k, EntryValue.new env r) ≤ c.store.capacity_bytes) :
    c.insert k env r =
      { c with
        store := { c.store with entries := [(k, EntryValue.new env r)] }
        metrics := { c.metrics with
          count_bytes := STRUCTURAL_OVERHEAD + entryBytes (k, EntryValue.new env r) } } := by
  rw [insert_enabled c k env r hen]
  have hins : removeEntry c.store.entries k ++ [(k, EntryValue.new env r)]
      = [(k, EntryValue.new env r)] := by
    rw [hem]
    rfl
  have hloop : evictLoop c.store.capacity_bytes [(k, EntryValue.new env r)]
      = ([], [(k, EntryValue.new env r)]) := by
    apply evictLoop_no_evict
    rw [contentBytes_cons, contentBytes_nil]
    omega
  have hput : c.store.put k (EntryValue.new env r)
      = ([], { c.store with entries := [(k, EntryValue.new env r)] }) := by
    simp only [Store.put, hins, hloop]
  rw [hput]
  simp only [List.foldl_nil]
  rw [Store.count_bytes, contentBytes_cons, contentBytes_nil]
  simp

lemma insert_into_single (c : QueryCache) (k0 : EntryKey) (v0 : EntryValue)
    (k : EntryKey) (env : EntryEnv) (r : WasmResult)
    (hen : c.enabled = true)
    (hentries : c.store.entries = [(k0, v0)])
    (hne : k0 ≠ k)
    (hover : c.store.capacity_bytes
      < entryBytes (k0, v0) + entryBytes (k, EntryValue.new env r))
    (hfit : entryBytes (k, EntryValue.new env r) ≤ c.store.capacity_bytes) :
    c.insert k env r =
      { c with
        store := { c.store with entries := [(k, EntryValue.new env r)] }
        metrics := { recordEviction env.batch_time c.metrics (k0, v0) with
          count_bytes := STRUCTURAL_OVERHEAD + entryBytes (k, EntryValue.new env r) } } := by
  rw [insert_enabled c k env r hen]
  have hins : removeEntry c.store.entries k ++ [(k, EntryValue.new env r)]
      = [(k0, v0), (k, EntryValue.new env r)] := by
    rw [hentries]
    simp [removeEntry, hne]
  have h1 : c.store.capacity_bytes
      < contentBytes [(k0, v0), (k, EntryValue.new env r)] := by
    rw [contentBytes_cons, contentBytes_cons, contentBytes_nil]
    omega
  have h2 : contentBytes [(k, EntryValue.new env r)] ≤ c.store.capacity_bytes := by
    rw [contentBytes_cons, contentBytes_nil]
    omega
  have h2' : ¬ (c.store.capacity_bytes
      < contentBytes [(k, EntryValue.new env r)]) := Nat.not_lt.mpr h2
  have hloop : evictLoop c.store.capacity_bytes [(k0, v0), (k, EntryValue.new env r)]
      = ([(k0, v0)], [(k, EntryValue.new env r)]) := by
    simp only [evictLoop, if_pos h1, if_neg h2']
  have hput : c.store.put k (EntryValue.new env r)
      = ([(k0, v0)], { c.store with entries := [(k, EntryValue.new env r)] }) := by
    simp only [Store.put, hins, hloop]
  rw [hput]
  simp only [List.foldl_cons, List.foldl_nil]
  rw [Store.count_bytes, contentBytes_cons, contentBytes_nil]
  simp

lemma insert_count_bytes_empty (c : QueryCache) (k : EntryKey) (env : EntryEnv)
    (r : WasmResult)
    (hen : c.enabled = true)
    (hem : c.store.entries = [])
    (hfit : entryBytes (k, EntryValue.new env r) ≤ c.store.capacity_bytes) :
    (c.insert k env r).count_bytes
      = STRUCTURAL_OVERHEAD + entryBytes (k, EntryValue.new env r) := by
  rw [insert_into_empty c k env r hen hem hfit]
  show Store.count_bytes { c.store with entries := [(k, EntryValue.new env r)] }
    = STRUCTURAL_OVERHEAD + entryBytes (k, EntryValue.new env r)
  rw [Store.count_bytes, contentBytes_cons, contentBytes_nil]
  omega

/-- C9: when the single cached entry holding a large value is invalidated
by a balance change and the same key is re-inserted with a strictly
smaller value, count_bytes drops to exactly the structural overhead plus
the new entry's footprint - below the old value's size and still above the
new value's size: exactly the replaced entry's footprint is freed. -/
theorem C9_invalidation_frees_memory (c : QueryCache) (k : EntryKey)
    (vbig : EntryValue) (env2 : EntryEnv) (r : WasmResult)
    (hen : c.enabled = true)
    (hentries : c.store.entries = [(k, vbig)])
    (hdiff : vbig.env.canister_balance ≠ env2.canister_balance)
    (hfit : entryBytes (k, EntryValue.new env2 r) ≤ c.store.capacity_bytes)
    (hsmaller : STRUCTURAL_OVERHEAD + entryBytes (k, EntryValue.new env2 r)
      < vbig.count_bytes) :
    (c.lookup k env2).1 = CacheLookupOutcome.Miss ∧
    ((c.lookup k env2).2.insert k env2 r).count_bytes
      = STRUCTURAL_OVERHEAD + entryBytes (k, EntryValue.new env2 r) ∧
    ((c.lookup k env2).2.insert k env2 r).count_bytes < vbig.count_bytes ∧
    (EntryValue.new env2 r).count_bytes
      < ((c.lookup k env2).2.insert k env2 r).count_bytes := by
  have hfind : findEntry c.store.entries k = some vbig := by
    rw [hentries]
    simp [findEntry]
  have hl := lookup_invalidated c k env2 vbig hen hfind (Or.inr (Or.inr hdiff))
  have hcb : ((c.lookup k env2).2.insert k env2 r).count_bytes
      = STRUCTURAL_OVERHEAD + entryBytes (k, EntryValue.new env2 r) := by
    rw [hl]
    refine insert_count_bytes_empty _ k env2 r ?_ ?_ ?_
    · exact hen
    · show removeEntry c.store.entries k = []
      rw [hentries]
      simp [removeEntry]
    · exact hfit
  refine ⟨?_, hcb, ?_, ?_⟩
  · rw [hl]
  · rw [hcb]
    omega
  · rw [hcb]
    have hkv : entryBytes (k, EntryValue.new env2 r)
        = k.count_bytes + (EntryValue.new env2 r).count_bytes := rfl
    have hS : STRUCTURAL_OVERHEAD = 8 := rfl
    rw [hS, hkv]
    omega

set_option maxRecDepth 20000 in
/-- C9 witness: a 232-byte cached value replaced, after a balance-change
invalidation, by a 74-byte value under the same key. -/
theorem C9_invalidation_frees_memory_witness :
    (QueryCache.lookup
        { enabled := true
          store := { capacity_bytes := 10000, entries := [(exKey, c9BigValue)] }
          metrics := QueryCacheMetrics.empty } exKey c9Env2).1
      = CacheLookupOutcome.Miss ∧
    ((QueryCache.lookup
        { enabled := true
          store := { capacity_bytes := 10000, entries := [(exKey, c9BigValue)] }
          metrics := QueryCacheMetrics.empty } exKey c9Env2).2.insert
        exKey c9Env2 c9SmallReply).count_bytes
      = STRUCTURAL_OVERHEAD + entryBytes (exKey, EntryValue.new c9Env2 c9SmallReply) ∧
    ((QueryCache.lookup
        { enabled := true
          store := { capacity_bytes := 10000, entries := [(exKey, c9BigValue)] }
          metrics := QueryCacheMetrics.empty } exKey c9Env2).2.insert
        exKey c9Env2 c9SmallReply).count_bytes < c9BigValue.count_bytes ∧
    (EntryValue.new c9Env2 c9SmallReply).count_bytes
      < ((QueryCache.lookup
          { enabled := true
            store := { capacity_bytes := 10000, entries := [(exKey, c9BigValue)] }
            metrics := QueryCacheMetrics.empty } exKey c9Env2).2.insert
          exKey c9Env2 c9SmallReply).count_bytes :=
  C9_invalidation_frees_memory
    { enabled := true
      store := { capacity_bytes := 10000, entries := [(exKey, c9BigValue)] }
      metrics := QueryCacheMetrics.empty } exKey c9BigValue c9Env2 c9SmallReply
    rfl rfl (by decide) (by decide) (by decide)

lemma c4_payload_length : c4Payload.length = 5000 := by
  rw [c4Payload]
  exact List.length_replicate 5000 1

lemma c4_entry_bytes (i : Nat) :
    entryBytes (c4Key i, EntryValue.new (c4Env i) (WasmResult.Reply c4Payload)) = 10095 := by
  have hq : ("query").length = 5 := rfl
  show KEY_FIXED_OVERHEAD + ("query").length + c4Payload.length
    + (VALUE_FIXED_OVERHEAD + c4Payload.length) = 10095
  rw [c4_payload_length, hq]
  decide

lemma c4_key_ne (i j : Nat) (h : i ≠ j) : c4Key i ≠ c4Key j := by
  intro heq
  exact h (congrArg EntryKey.source heq)

lemma c4_step_zero : c4Step (QueryCache.new 20000 true) 0 = c4StateAfter 0 := by
  show QueryCache.insert (QueryCache.new 20000 true) (c4Key 0) (c4Env 0)
    (WasmResult.Reply c4Payload) = c4StateAfter 0
  rw [insert_into_empty (QueryCache.new 20000 true) (c4Key 0) (c4Env 0)
    (WasmResult.Reply c4Payload) rfl rfl (by rw [c4_entry_bytes 0]; decide)]
  rw [c4_entry_bytes 0]
  rfl

lemma c4_step_succ (i j : Nat) (hj : j = i + 1) :
    c4Step (c4StateAfter i) j = c4StateAfter j := by
  subst hj
  show QueryCache.insert (c4StateAfter i) (c4Key (i + 1)) (c4Env (i + 1))
    (WasmResult.Reply c4Payload) = c4StateAfter (i + 1)
  rw [insert_into_single (c4StateAfter i) (c4Key i)
    (EntryValue.new (c4Env i) (WasmResult.Reply c4Payload))
    (c4Key (i + 1)) (c4Env (i + 1)) (WasmResult.Reply c4Payload)
    rfl rfl (c4_key_ne i (i + 1) (by omega))
    (by rw [c4_entry_bytes i, c4_entry_bytes (i + 1)]; norm_num [c4StateAfter])
    (by rw [c4_entry_bytes (i + 1)]; norm_num [c4StateAfter])]
  rw [c4_entry_bytes (i + 1)]
  simp only [c4StateAfter, recordEviction, Histogram.observe,
    EntryValue.elapsed_seconds, EntryValue.created_at, EntryValue.new, c4Env]
  have hsum : 2 * i + (GENESIS + 2 * (i + 1) - (GENESIS + 2 * i)) = 2 * (i + 1) := by
    omega
  have hcount : STRUCTURAL_OVERHEAD + 10095 = 10103 := rfl
  rw [hsum, hcount]

lemma c4Final_eq : c4Final = c4StateAfter 4 := by
  show ([0, 1, 2, 3, 4] : List Nat).foldl c4Step (QueryCache.new 20000 true)
    = c4StateAfter 4
  rw [List.foldl_cons, List.foldl_cons, List.foldl_cons, List.foldl_cons,
    List.foldl_cons, List.foldl_nil, c4_step_zero, c4_step_succ 0 1 rfl,
    c4_step_succ 1 2 rfl, c4_step_succ 2 3 rfl, c4_step_succ 3 4 rfl]

/-- C4: each entry a put evicts increments evicted_entries by one and
records exactly one evicted_entries_duration sample, equal to the evicted
value's age relative to the inserting environment's batch_time (clamped at
zero), and insert never touches invalidated_entries; concretely (test
query_cache_metrics_evicted_entries_count_bytes_work), with capacity 20000
bytes and five distinct 10095-byte entries (10000 bytes of payload and
reply) inserted 2 seconds apart, evicted_entries = 4, the duration
histogram sum is 8 and its count 4, while invalidated_entries stays 0. -/
theorem C4_eviction_bookkeeping :
    (∀ (c : QueryCache) (k : EntryKey) (env : EntryEnv) (r : WasmResult),
      c.enabled = true →
      (c.insert k env r).metrics.evicted_entries
        = c.metrics.evicted_entries + (c.store.put k (EntryValue.new env r)).1.length ∧
      (c.insert k env r).metrics.evicted_entries_duration.sample_count
        = c.metrics.evicted_entries_duration.sample_count
          + (c.store.put k (EntryValue.new env r)).1.length ∧
      (c.insert k env r).metrics.evicted_entries_duration.sample_sum
        = c.metrics.evicted_entries_duration.sample_sum
          + (((c.store.put k (EntryValue.new env r)).1.map
              (fun e => e.2.elapsed_seconds env.batch_time)).sum) ∧
      (c.insert k env r).metrics.invalidated_entries = c.metrics.invalidated_entries) ∧
    c4Final.metrics.evicted_entries = 4 ∧
    c4Final.metrics.evicted_entries_duration.sample_sum = 8 ∧
    c4Final.metrics.evicted_entries_duration.sample_count = 4 ∧
    c4Final.metrics.invalidated_entries = 0 := by
  constructor
  · intro c k env r hen
    rw [insert_enabled c k env r hen]
    exact ⟨foldl_recordEviction_evicted _ _ _, foldl_recordEviction_count _ _ _,
      foldl_recordEviction_sum _ _ _, foldl_recordEviction_invalidated _ _ _⟩
  · rw [c4Final_eq]
    exact ⟨rfl, rfl, rfl, rfl⟩

/-- C4 witness: the general eviction bookkeeping applied to a concrete
insert into a 50-byte cache (too small for the entry, so it is evicted). -/
theorem C4_eviction_bookkeeping_witness :
    ((QueryCache.new 50 true).insert exKey exEnv exResult).metrics.evicted_entries
      = (QueryCache.new 50 true).metrics.evicted_entries
        + ((QueryCache.new 50 true).store.put exKey
            (EntryValue.new exEnv exResult)).1.length ∧
    ((QueryCache.new 50 true).insert exKey exEnv
        exResult).metrics.evicted_entries_duration.sample_count
      = (QueryCache.new 50 true).metrics.evicted_entries_duration.sample_count
        + ((QueryCache.new 50 true).store.put exKey
            (EntryValue.new exEnv exResult)).1.length ∧
    ((QueryCache.new 50 true).insert exKey exEnv
        exResult).metrics.evicted_entries_duration.sample_sum
      = (QueryCache.new 50 true).metrics.evicted_entries_duration.sample_sum
        + ((((QueryCache.new 50 true).store.put exKey
            (EntryValue.new exEnv exResult)).1.map
              (fun e => e.2.elapsed_seconds exEnv.batch_time)).sum) ∧
    ((QueryCache.new 50 true).insert exKey exEnv exResult).metrics.invalidated_entries
      = (QueryCache.new 50 true).metrics.invalidated_entries :=
  C4_eviction_bookkeeping.1 (QueryCache.new 50 true) exKey exEnv exResult rfl
